import Mathlib

/-!
Verification of the `onlyargs` argument-parsing library (runtime crate `src/`
plus derive macro `onlyargs_derive`), as a shallow embedding in Lean 4.

Modelling conventions, each traced from the Rust source:

* `OsString` tokens are modelled as `String` (all inputs considered are valid
  UTF-8, so the `ParseStrError` path for invalid encodings never fires).
* Rust `Ident` and `Literal` values are modelled by their source text
  (`String`); `Literal::to_string`/`format!` is the identity on that text.
* Numeric value conversion (`parse_int` in `src/traits.rs`) is modelled at the
  `i32` instantiation, the width used by the generated code for the concrete
  schemas examined here.  Overflow and malformed text yield a parse error,
  exactly as `i32::from_str` does.
* The generated parser's calls to `Self::help()` / `Self::version()` terminate
  the process; they are modelled as the distinguished outcomes
  `ParseResult.help` / `ParseResult.version`.
* `proc_macro` plumbing (spans, visibility parsing, token-stream traversal) is
  elided: a struct field arrives as its name, the textual type path produced by
  `parse_path` (identifiers and punctuation concatenated, e.g. `Vec<PathBuf>`),
  and its attribute list.  `compile_error!` emission is modelled as
  `Except.error` with a structured `DeriveError`.
-/

namespace Onlyargs

/-- The single-quote character, written numerically. -/
def squote : Char := Char.ofNat 39

/-- The double-quote character, written numerically. -/
def dquote : Char := Char.ofNat 34

/-- Rust `char::is_ascii_alphabetic`. -/
def isAsciiAlphabetic (c : Char) : Bool :=
  (65 ≤ c.toNat && c.toNat ≤ 90) || (97 ≤ c.toNat && c.toNat ≤ 122)

/-- Rust `char::to_ascii_lowercase` (used by `make_ascii_lowercase`). -/
def asciiLower (c : Char) : Char :=
  if 65 ≤ c.toNat && c.toNat ≤ 90 then Char.ofNat (c.toNat + 32) else c

/-- Rust `char::is_ascii_digit`. -/
def isAsciiDigit (c : Char) : Bool :=
  48 ≤ c.toNat && c.toNat ≤ 57

/-- Decimal value of a digit list (most significant first). -/
def digitsToNat (l : List Char) : Nat :=
  l.foldl (fun a c => a * 10 + (c.toNat - 48)) 0

/-- Core of `i32::from_str`: a non-empty all-digit string within the `i32`
range, with the sign already stripped. -/
def parseI32core (l : List Char) (neg : Bool) : Option Int :=
  if l.isEmpty || !(l.all isAsciiDigit) then none
  else
    let n := digitsToNat l
    if neg then
      if n ≤ 2147483648 then some (-(n : Int)) else none
    else
      if n ≤ 2147483647 then some (n : Int) else none

/-- Rust `i32::from_str`: optional sign, then decimal digits, range-checked. -/
def parseI32? (s : String) : Option Int :=
  match s.toList with
  | '-' :: rest => parseI32core rest true
  | '+' :: rest => parseI32core rest false
  | l => parseI32core l false

/-! ## Data model of `onlyargs_derive/src/parser.rs` -/

/-- `ArgType` from `parser.rs` (help/value-conversion kind). -/
inductive ArgType where
  | number
  | osString
  | path
  | string
deriving DecidableEq, Repr

/-- `ArgFlag` from `parser.rs`. -/
structure ArgFlag where
  name : String
  short : Option Char
  doc : List String
  output : Bool
deriving DecidableEq, Repr

/-- `ArgOption` from `parser.rs`.  `default` holds the literal's source text. -/
structure ArgOption where
  name : String
  short : Option Char
  tyHelp : ArgType
  doc : List String
  default : Option String
  optional : Bool
  positional : Bool
deriving DecidableEq, Repr

/-- `Argument` from `parser.rs`. -/
inductive Argument where
  | flag (f : ArgFlag)
  | option (o : ArgOption)
deriving DecidableEq, Repr

/-- The document structure collected by `ArgumentStruct::parse` (the struct
name and struct-level doc lines are not needed by any claim and are elided). -/
structure ArgumentStruct where
  flags : List ArgFlag
  options : List ArgOption
  positional : Option ArgOption
deriving DecidableEq, Repr

/-- One field attribute as seen by `Argument::parse` after token-stream
decoding: doc line, `#[default(lit)]`, `#[long]`, `#[short(lit)]`, or any other
attribute name (which the loop in `parser.rs` silently skips via `_ => ()`). -/
inductive Attr where
  | docA (line : String)
  | defaultA (lit : String)
  | longA
  | shortA (lit : String)
  | otherA (name : String)
deriving DecidableEq, Repr

/-- A struct field presented to the derive macro: identifier, textual type
path (as accumulated by `parse_path`), attributes in source order. -/
structure FieldDef where
  name : String
  path : String
  attrs : List Attr
deriving DecidableEq, Repr

/-- Structured stand-in for the `compile_error!` streams produced by
`spanned_error` during schema construction. -/
inductive DeriveError where
  | expectedCharLiteral
  | unsupportedType (field : String)
  | duplicatePositional (field : String)
  | duplicateShort (ch : Char) (prevField : String) (atField : String)
deriving DecidableEq, Repr

/-- `parse_char_literal` from `parser.rs`: note the source tests
`string.len() == 3` (byte length) for the ERROR branch, then returns
`chars().nth(1)`. -/
def parseCharLiteral (lit : String) : Except DeriveError Char :=
  if lit.utf8ByteSize = 3 || !(lit.toList.head? = some squote) ||
      !(lit.toList.getLast? = some squote) then
    .error .expectedCharLiteral
  else
    match lit.toList.get? 1 with
    | some c => .ok c
    | none => .error .expectedCharLiteral

/-- `name.to_string().chars().find(|ch| ch.is_ascii_alphabetic())`, on a
character list. -/
def findShortL : List Char → Option Char
  | [] => none
  | c :: cs => if isAsciiAlphabetic c then some c else findShortL cs

/-- Short-name inference used by both `ArgFlag::parse` and
`ArgOption::parse`. -/
def findShort (name : String) : Option Char :=
  findShortL name.toList

/-- The attribute loop at the top of `Argument::parse` (parser.rs lines
121-149): accumulates `default`, `long`, `short`; unknown attribute names are
ignored.  A `#[short(...)]` literal that `parse_char_literal` rejects aborts
with its error (the `?` in the source). -/
def scanAttrs (st : Option String × Bool × Option Char) :
    List Attr → Except DeriveError (Option String × Bool × Option Char)
  | [] => .ok st
  | a :: rest =>
    match a with
    | .defaultA lit => scanAttrs (some lit, st.2.1, st.2.2) rest
    | .longA => scanAttrs (st.1, true, st.2.2) rest
    | .shortA lit =>
      match parseCharLiteral lit with
      | .ok c => scanAttrs (st.1, st.2.1, some c) rest
      | .error e => .error e
    | _ => scanAttrs st rest

/-- `get_doc_comment`: the doc lines of an attribute list, in order. -/
def docOf (attrs : List Attr) : List String :=
  attrs.filterMap fun a =>
    match a with
    | .docA s => some s
    | _ => none

/-- The type-path allow-lists of `ArgOption::parse` (parser.rs lines
252-323), verbatim. -/
def requiredPaths : List String :=
  ["::std::path::PathBuf", "std::path::PathBuf", "path::PathBuf", "PathBuf"]

def requiredOsStrings : List String :=
  ["::std::ffi::OsString", "std::ffi::OsString", "ffi::OsString", "OsString"]

def requiredNumbers : List String :=
  ["f32", "f64", "i8", "i16", "i32", "i64", "i128", "isize", "u8", "u16",
   "u32", "u64", "u128", "usize"]

def positionalPaths : List String :=
  ["Vec<::std::path::PathBuf>", "Vec<std::path::PathBuf>", "Vec<path::PathBuf>",
   "Vec<PathBuf>"]

def positionalOsStrings : List String :=
  ["Vec<::std::ffi::OsString>", "Vec<std::ffi::OsString>", "Vec<ffi::OsString>",
   "Vec<OsString>"]

def positionalNumbers : List String :=
  ["Vec<f32>", "Vec<f64>", "Vec<i8>", "Vec<i16>", "Vec<i32>", "Vec<i64>",
   "Vec<i128>", "Vec<isize>", "Vec<u8>", "Vec<u16>", "Vec<u32>", "Vec<u64>",
   "Vec<u128>", "Vec<usize>"]

def optionalPaths : List String :=
  ["Option<::std::path::PathBuf>", "Option<std::path::PathBuf>",
   "Option<path::PathBuf>", "Option<PathBuf>"]

def optionalOsStrings : List String :=
  ["Option<::std::ffi::OsString>", "Option<std::ffi::OsString>",
   "Option<ffi::OsString>", "Option<OsString>"]

def optionalNumbers : List String :=
  ["Option<f32>", "Option<f64>", "Option<i8>", "Option<i16>", "Option<i32>",
   "Option<i64>", "Option<i128>", "Option<isize>", "Option<u8>", "Option<u16>",
   "Option<u32>", "Option<u64>", "Option<u128>", "Option<usize>"]

/-- The `optional` decision of `ArgOption::parse` (parser.rs lines 325-346):
`some true` / `some false`, or `none` for the unsupported-type error. -/
def classifyOptional (path : String) : Option Bool :=
  if optionalPaths.contains path || optionalOsStrings.contains path ||
      optionalNumbers.contains path || path == "Option<String>" ||
      positionalPaths.contains path || positionalOsStrings.contains path ||
      positionalNumbers.contains path || path == "Vec<String>" then
    some true
  else if requiredPaths.contains path || requiredOsStrings.contains path ||
      requiredNumbers.contains path || path == "String" then
    some false
  else
    none

/-- The `ty_help` decision of `ArgOption::parse` (parser.rs lines 348-367);
`none` models the `unreachable!()` arm. -/
def classifyTy (path : String) : Option ArgType :=
  if optionalPaths.contains path || requiredPaths.contains path ||
      positionalPaths.contains path then
    some .path
  else if optionalOsStrings.contains path || requiredOsStrings.contains path ||
      positionalOsStrings.contains path then
    some .osString
  else if path == "String" || path == "Vec<String>" || path == "Option<String>" then
    some .string
  else if optionalNumbers.contains path || requiredNumbers.contains path ||
      positionalNumbers.contains path then
    some .number
  else
    none

/-- The `positional` decision of `ArgOption::parse` (parser.rs lines 369-372):
true exactly for the growable-sequence (`Vec<...>`) spellings; no attribute is
consulted. -/
def isPositionalPath (path : String) : Bool :=
  positionalPaths.contains path || positionalOsStrings.contains path ||
    positionalNumbers.contains path || path == "Vec<String>"

/-- `ArgOption::parse` (parser.rs lines 242-386), after `parse_path`. -/
def argOptionParse (name path : String) : Except DeriveError ArgOption :=
  match classifyOptional path with
  | none => .error (.unsupportedType name)
  | some opt =>
    match classifyTy path with
    | none => .error (.unsupportedType name)
    | some ty =>
      .ok { name := name, short := findShort name, tyHelp := ty, doc := [],
            default := none, optional := opt, positional := isPositionalPath path }

/-- The short-name patch applied by `Argument::parse` after a successful field
parse (parser.rs lines 160-164 for flags, 189-193 for options):
`if long { short = None } else if attr_short.is_some() { short = attr_short }`. -/
def patchShort (long : Bool) (attrShort inferred : Option Char) : Option Char :=
  if long then none
  else if attrShort.isSome then attrShort
  else inferred

/-- `doc.last_mut()` push or `doc.push` fallback, used by the default/required
doc patch (parser.rs lines 172-187). -/
def patchLast (doc : List String) (suffix fresh : String) : List String :=
  match doc with
  | [] => [fresh]
  | [l] => [l ++ suffix]
  | l :: rest => l :: patchLast rest suffix fresh

/-- The default/required patch of `Argument::parse` (parser.rs lines 172-187):
set `opt.default`, clear `optional` and add a `[default: ..]` doc suffix when a
default literal exists, else add `[required]` for non-optional options.  No
field-kind check is performed. -/
def patchDefaultDoc (dflt : Option String) (o : ArgOption) : ArgOption :=
  let o := { o with default := dflt }
  match dflt with
  | some d =>
    { o with optional := false,
             doc := patchLast o.doc (" [default: " ++ d ++ "]")
                      ("[default: " ++ d ++ "]") }
  | none =>
    if !o.optional then
      { o with doc := patchLast o.doc " [required]" "[required]" }
    else o

/-- `ArgFlag::parse` (parser.rs lines 207-229): applies when the field's type
is the single identifier `bool`. -/
def argFlagParse (name : String) : ArgFlag :=
  { name := name, short := findShort name, doc := [], output := true }

/-- One iteration of the field loop in `Argument::parse` (parser.rs lines
117-200): scan attributes, try the flag parse (type `bool`), otherwise the
option parse, then apply the doc / default / short patches. -/
def parseArgument (f : FieldDef) : Except DeriveError Argument :=
  match scanAttrs (none, false, none) f.attrs with
  | .error e => .error e
  | .ok (dflt, long, attrShort) =>
    if f.path == "bool" then
      let flag := argFlagParse f.name
      let flag := { flag with doc := docOf f.attrs }
      .ok (.flag { flag with short := patchShort long attrShort flag.short })
    else
      match argOptionParse f.name f.path with
      | .error e => .error e
      | .ok o =>
        let o := { o with doc := docOf f.attrs }
        let o := patchDefaultDoc dflt o
        .ok (.option { o with short := patchShort long attrShort o.short })

/-- `Argument::parse` over the whole field list. -/
def parseArguments : List FieldDef → Except DeriveError (List Argument)
  | [] => .ok []
  | f :: rest =>
    match parseArgument f with
    | .error e => .error e
    | .ok a =>
      match parseArguments rest with
      | .error e => .error e
      | .ok as2 => .ok (a :: as2)

/-- The partition loop of `ArgumentStruct::parse` (parser.rs lines 81-95):
flags, non-positional options, and at most one positional sink ("Positional
arguments can only be specified once."). -/
def collectArgs (flags : List ArgFlag) (opts : List ArgOption)
    (pos : Option ArgOption) :
    List Argument → Except DeriveError (List ArgFlag × List ArgOption × Option ArgOption)
  | [] => .ok (flags, opts, pos)
  | .flag f :: rest => collectArgs (flags ++ [f]) opts pos rest
  | .option o :: rest =>
    if o.positional then
      match pos with
      | none => collectArgs flags opts (some o) rest
      | some _ => .error (.duplicatePositional o.name)
    else
      collectArgs flags (opts ++ [o]) pos rest

/-- The two built-in flags prepended by `derive_parser` (lib.rs lines
120-133); `output = false` keeps them out of the generated struct. -/
def builtinFlags : List ArgFlag :=
  [{ name := "help", short := some 'h', doc := ["Show this help message."],
     output := false },
   { name := "version", short := some 'V',
     doc := ["Show the application version."], output := false }]

/-- `ArgView` projection for de-duplication: `(short, name)`. -/
def flagView (f : ArgFlag) : Option Char × String := (f.short, f.name)

def optView (o : ArgOption) : Option Char × String := (o.short, o.name)

/-- Lookup in the `dupes` map (`HashMap<char, &Ident>` modelled as an
association list). -/
def lookupChar : List (Char × String) → Char → Option String
  | [], _ => none
  | (k, v) :: rest, c => if k = c then some v else lookupChar rest c

/-- `dedupe` from lib.rs lines 441-454: reject a short name already claimed,
reporting the previous claimant; record new claims. -/
def dedupe (dupes : List (Char × String)) (v : Option Char × String) :
    Except DeriveError (List (Char × String)) :=
  match v.1 with
  | none => .ok dupes
  | some c =>
    match lookupChar dupes c with
    | some other => .error (.duplicateShort c other v.2)
    | none => .ok ((c, v.2) :: dupes)

/-- The de-dupe loops of `derive_parser` (lib.rs lines 136-147), folded over
all views in order. -/
def dedupeAll (dupes : List (Char × String)) :
    List (Option Char × String) → Except DeriveError (List (Char × String))
  | [] => .ok dupes
  | v :: vs =>
    match dedupe dupes v with
    | .ok d => dedupeAll d vs
    | .error e => .error e

/-- The schema-construction portion of `derive_parser` (lib.rs lines
114-147): parse the struct's fields, partition them, prepend the built-in
flags, and de-dupe short names (user flags in declaration order after the
built-ins, then valued options; the positional sink is not de-duped). -/
def deriveParser (fields : List FieldDef) : Except DeriveError ArgumentStruct :=
  match parseArguments fields with
  | .error e => .error e
  | .ok args =>
    match collectArgs [] [] none args with
    | .error e => .error e
    | .ok (fl, opts, pos) =>
      match dedupeAll [] ((builtinFlags ++ fl).map flagView ++ opts.map optView) with
      | .error e => .error e
      | .ok _ =>
        .ok { flags := builtinFlags ++ fl, options := opts, positional := pos }

/-! ## Runtime model: `CliError` (src/lib.rs) and the value helpers of
`src/traits.rs` -/

/-- `CliError` from src/lib.rs.  The nested standard-library error payloads
carry no information used by the parser, and the float/bool/char variants are
never produced by the generated code (`parse_int` is emitted for every
`Number`), so they are omitted. -/
inductive CliError where
  | missingValue (arg : String)
  | missingRequired (arg : String)
  | parseIntError (arg : String) (value : String)
  | parseStrError (arg : String) (value : String)
  | unknown (value : String)
deriving DecidableEq, Repr

/-- A parsed argument value: a number (`i32` model) or a textual value
(`String` / `PathBuf` / `OsString` under the UTF-8 token model). -/
inductive Val where
  | num (n : Int)
  | str (s : String)
deriving DecidableEq, Repr

/-- `RequiredArgExt for Vec<T>` (src/traits.rs lines 194-207): an empty
collection is a missing required argument. -/
def vecRequired (l : List Val) (name : String) : Except CliError (List Val) :=
  if l.isEmpty then .error (.missingRequired name) else .ok l

/-! ## The generated parse procedure (lib.rs lines 330-387)

The generated code is straight-line Rust specialised to one schema; it is
modelled here as an interpreter over the `ArgumentStruct` the codegen consumed,
mirroring the emitted `match` arm for arm and in the same order. -/

/-- `to_arg_name` (lib.rs lines 400-405): underscores to hyphens, ASCII
lowercased. -/
def toArgName (name : String) : String :=
  String.mk (name.toList.map fun c => asciiLower (if c = '_' then '-' else c))

/-- The `-c` spelling of a short name. -/
def shortSpelling (c : Char) : String := String.mk ['-', c]

/-- Whether a token matches a flag's generated arm
`Some("--long") | Some("-c")`. -/
def flagMatches (tok : String) (f : ArgFlag) : Bool :=
  tok == "--" ++ toArgName f.name ||
    (match f.short with
     | some c => tok == shortSpelling c
     | none => false)

/-- First flag arm matching a token; only flags with `output` set have arms
(the `filter_map` over `flag.output` in lib.rs lines 206-222). -/
def findFlagIdxIn (tok : String) : List ArgFlag → Option Nat
  | [] => none
  | f :: rest =>
    if f.output && flagMatches tok f then some 0
    else (findFlagIdxIn tok rest).map Nat.succ

def findFlagIdx (s : ArgumentStruct) (tok : String) : Option Nat :=
  findFlagIdxIn tok s.flags

/-- Whether a token matches an option's generated arm
`Some(name @ "--long") | Some(name @ "-c")`. -/
def optMatches (tok : String) (o : ArgOption) : Bool :=
  tok == "--" ++ toArgName o.name ||
    (match o.short with
     | some c => tok == shortSpelling c
     | none => false)

/-- First option arm matching a token, with its position. -/
def findOptIn (tok : String) : List ArgOption → Option (Nat × ArgOption)
  | [] => none
  | o :: rest =>
    if optMatches tok o then some (0, o)
    else (findOptIn tok rest).map fun p => (p.1 + 1, p.2)

/-- The hard-coded `Some("--help") | Some("-h")` arm. -/
def helpTok (tok : String) : Bool := tok == "--help" || tok == "-h"

/-- The hard-coded `Some("--version") | Some("-V")` arm. -/
def versionTok (tok : String) : Bool := tok == "--version" || tok == "-V"

/-- Value conversion per `ArgType`, following the `parse_int` / `parse_str` /
`parse_path` / `parse_osstr` calls emitted in lib.rs lines 232-246 and the
trait impls in src/traits.rs.  Under the UTF-8 token model only the numeric
conversion can fail. -/
def convVal (ty : ArgType) (name tok : String) : Except CliError Val :=
  match ty with
  | .number =>
    match parseI32? tok with
    | some n => .ok (.num n)
    | none => .error (.parseIntError name tok)
  | .string => .ok (.str tok)
  | .path => .ok (.str tok)
  | .osString => .ok (.str tok)

/-- Mutable parser state: one `bool` per flag (built-ins included, unused),
one `Option` per valued option (pre-seeded by `#[default]`), and the
positional collection. -/
structure PState where
  flags : List Bool
  opts : List (Option Val)
  pos : List Val
deriving DecidableEq, Repr

def setFlag (st : PState) (i : Nat) : PState :=
  { st with flags := st.flags.set i true }

def setOpt (st : PState) (j : Nat) (v : Val) : PState :=
  { st with opts := st.opts.set j (some v) }

/-- The `Some("--") => { for arg in args { name.push(value?); } break; }` body
of the positional matcher (lib.rs lines 264-274): convert and push one token
at a time, aborting on the first conversion failure. -/
def pushAll (ty : ArgType) (acc : List Val) : List String → Except CliError (List Val)
  | [] => .ok acc
  | t :: ts =>
    match convVal ty "<POSITIONAL>" t with
    | .ok v => pushAll ty (acc ++ [v]) ts
    | .error e => .error e

/-- Specification-shaped batch conversion: convert every token, in order,
committing nothing on failure. -/
def convAll (ty : ArgType) : List String → Except CliError (List Val)
  | [] => .ok []
  | t :: ts =>
    match convVal ty "<POSITIONAL>" t with
    | .ok v =>
      match convAll ty ts with
      | .ok vs => .ok (v :: vs)
      | .error e => .error e
    | .error e => .error e

/-- The evaluated value of a `#[default(lit)]` literal spliced into
`let mut name = lit;`: an integer literal yields its number, a string literal
its contents, anything else its raw text. -/
def litVal (lit : String) : Val :=
  match parseI32? lit with
  | some n => .num n
  | none =>
    if lit.toList.head? = some dquote && lit.toList.getLast? = some dquote then
      .str (String.mk (lit.toList.drop 1).dropLast)
    else
      .str lit

/-- The `Ok(Self { ... })` constructor's option fields (lib.rs lines 288-302):
options with a default or marked optional pass through; other options go
through `.required("--long")?`. -/
def finalizeOpts : List ArgOption → List (Option Val) → Except CliError (List (Option Val))
  | [], _ => .ok []
  | _, [] => .ok []
  | o :: os, v :: vs =>
    if o.default.isSome || o.optional then
      match finalizeOpts os vs with
      | .ok rest => .ok (v :: rest)
      | .error e => .error e
    else
      match v with
      | some val =>
        match finalizeOpts os vs with
        | .ok rest => .ok (some val :: rest)
        | .error e => .error e
      | none => .error (.missingRequired ("--" ++ toArgName o.name))

/-- The populated configuration struct: flag fields (only `output` flags, in
order), option fields, and the positional collection. -/
structure Config where
  flags : List Bool
  opts : List (Option Val)
  pos : List Val
deriving DecidableEq, Repr

/-- Outcome of one invocation of the generated `parse`: a configuration, an
error, or process termination via the help/version paths. -/
inductive ParseResult where
  | ok (c : Config)
  | err (e : CliError)
  | help
  | version
deriving DecidableEq, Repr

/-- Flag values kept in the output struct (`flags_idents`, lib.rs lines
284-287): only flags with `output` set. -/
def outFlags (s : ArgumentStruct) (bools : List Bool) : List Bool :=
  ((s.flags.zip bools).filter fun p => p.1.output).map Prod.snd

/-- Loop exit: run the required checks and build the struct. -/
def finalize (s : ArgumentStruct) (st : PState) : ParseResult :=
  match finalizeOpts s.options st.opts with
  | .ok vals => .ok { flags := outFlags s st.flags, opts := vals, pos := st.pos }
  | .error e => .err e

/-- The `while let Some(arg) = args.next()` loop of the generated `parse`
(lib.rs lines 367-377), arm for arm: help, version, flag matchers, option
matchers, then the positional matcher or the no-positional fallback. -/
def parseLoop (s : ArgumentStruct) (st : PState) : List String → ParseResult
  | [] => finalize s st
  | tok :: rest =>
    if helpTok tok then .help
    else if versionTok tok then .version
    else
      match findFlagIdx s tok with
      | some i => parseLoop s (setFlag st i) rest
      | none =>
        match findOptIn tok s.options with
        | some (j, o) =>
          match rest with
          | [] => .err (.missingValue tok)
          | v :: rest2 =>
            match convVal o.tyHelp tok v with
            | .ok val => parseLoop s (setOpt st j val) rest2
            | .error e => .err e
        | none =>
          match s.positional with
          | some p =>
            if tok == "--" then
              match pushAll p.tyHelp st.pos rest with
              | .ok vs => finalize s { st with pos := vs }
              | .error e => .err e
            else
              match convVal p.tyHelp "<POSITIONAL>" tok with
              | .ok val => parseLoop s { st with pos := st.pos ++ [val] } rest
              | .error e => .err e
          | none =>
            if tok == "--" then finalize s st
            else .err (.unknown tok)

/-- Initial parser state (lib.rs lines 174-203): flags false, options unset or
pre-seeded with their default literal, positional empty. -/
def initState (s : ArgumentStruct) : PState :=
  { flags := s.flags.map fun _ => false,
    opts := s.options.map fun o => o.default.map litVal,
    pos := [] }

/-- The generated `fn parse(args: Vec<OsString>)`. -/
def parseArgs (s : ArgumentStruct) (args : List String) : ParseResult :=
  parseLoop s (initState s) args

/-- Run the macro and, if it succeeds, the generated parser. -/
def deriveAndParse (fields : List FieldDef) (args : List String) :
    Option ParseResult :=
  match deriveParser fields with
  | .ok s => some (parseArgs s args)
  | .error _ => none

/-- No token spells the help or version arms. -/
def noHelpVersion (toks : List String) : Bool :=
  toks.all fun t => !helpTok t && !versionTok t

/-! ## Operational reading of the generated parser

`Step s st toks r` says: started in state `st` with remaining input `toks`,
the generated loop for schema `s` finishes with outcome `r`.  There is one
constructor per arm of the generated `match`; Rust's first-match-wins
semantics appears as the negative premises on each later arm. -/

inductive Step (s : ArgumentStruct) : PState → List String → ParseResult → Prop where
  | done (st : PState) : Step s st [] (finalize s st)
  | helpStop (st : PState) (tok : String) (rest : List String) :
      helpTok tok = true → Step s st (tok :: rest) .help
  | versionStop (st : PState) (tok : String) (rest : List String) :
      helpTok tok = false → versionTok tok = true →
      Step s st (tok :: rest) .version
  | flagSet (st : PState) (tok : String) (rest : List String) (i : Nat)
      (r : ParseResult) :
      helpTok tok = false → versionTok tok = false →
      findFlagIdx s tok = some i →
      Step s (setFlag st i) rest r → Step s st (tok :: rest) r
  | optNoValue (st : PState) (tok : String) (j : Nat) (o : ArgOption) :
      helpTok tok = false → versionTok tok = false →
      findFlagIdx s tok = none → findOptIn tok s.options = some (j, o) →
      Step s st [tok] (.err (.missingValue tok))
  | optConvFail (st : PState) (tok v : String) (rest2 : List String) (j : Nat)
      (o : ArgOption) (e : CliError) :
      helpTok tok = false → versionTok tok = false →
      findFlagIdx s tok = none → findOptIn tok s.options = some (j, o) →
      convVal o.tyHelp tok v = .error e →
      Step s st (tok :: v :: rest2) (.err e)
  | optSet (st : PState) (tok v : String) (rest2 : List String) (j : Nat)
      (o : ArgOption) (val : Val) (r : ParseResult) :
      helpTok tok = false → versionTok tok = false →
      findFlagIdx s tok = none → findOptIn tok s.options = some (j, o) →
      convVal o.tyHelp tok v = .ok val →
      Step s (setOpt st j val) rest2 r → Step s st (tok :: v :: rest2) r
  | posBatchOk (st : PState) (tok : String) (rest : List String)
      (p : ArgOption) (vs : List Val) :
      helpTok tok = false → versionTok tok = false →
      findFlagIdx s tok = none → findOptIn tok s.options = none →
      s.positional = some p → (tok == "--") = true →
      pushAll p.tyHelp st.pos rest = .ok vs →
      Step s st (tok :: rest) (finalize s { st with pos := vs })
  | posBatchFail (st : PState) (tok : String) (rest : List String)
      (p : ArgOption) (e : CliError) :
      helpTok tok = false → versionTok tok = false →
      findFlagIdx s tok = none → findOptIn tok s.options = none →
      s.positional = some p → (tok == "--") = true →
      pushAll p.tyHelp st.pos rest = .error e →
      Step s st (tok :: rest) (.err e)
  | posOne (st : PState) (tok : String) (rest : List String) (p : ArgOption)
      (val : Val) (r : ParseResult) :
      helpTok tok = false → versionTok tok = false →
      findFlagIdx s tok = none → findOptIn tok s.options = none →
      s.positional = some p → (tok == "--") = false →
      convVal p.tyHelp "<POSITIONAL>" tok = .ok val →
      Step s { st with pos := st.pos ++ [val] } rest r →
      Step s st (tok :: rest) r
  | posOneFail (st : PState) (tok : String) (rest : List String)
      (p : ArgOption) (e : CliError) :
      helpTok tok = false → versionTok tok = false →
      findFlagIdx s tok = none → findOptIn tok s.options = none →
      s.positional = some p → (tok == "--") = false →
      convVal p.tyHelp "<POSITIONAL>" tok = .error e →
      Step s st (tok :: rest) (.err e)
  | dashNoPos (st : PState) (tok : String) (rest : List String) :
      helpTok tok = false → versionTok tok = false →
      findFlagIdx s tok = none → findOptIn tok s.options = none →
      s.positional = none → (tok == "--") = true →
      Step s st (tok :: rest) (finalize s st)
  | unknownTok (st : PState) (tok : String) (rest : List String) :
      helpTok tok = false → versionTok tok = false →
      findFlagIdx s tok = none → findOptIn tok s.options = none →
      s.positional = none → (tok == "--") = false →
      Step s st (tok :: rest) (.err (.unknown tok))

/-! ## Fixtures used by concrete instantiations -/

/-- Whether an `Except` holds a value. -/
def exceptOk : Except DeriveError (List (Char × String)) → Bool
  | .ok _ => true
  | .error _ => false

/-- A schema with only a numeric positional sink (`numbers: Vec<i32>`). -/
def c6Pos : ArgOption :=
  { name := "numbers", short := some 'n', tyHelp := .number, doc := [],
    default := none, optional := true, positional := true }

def c6Schema : ArgumentStruct :=
  { flags := builtinFlags, options := [], positional := some c6Pos }

/-- A schema with one optional string option (`name: Option<String>`). -/
def c10Opt : ArgOption :=
  { name := "name", short := some 'n', tyHelp := .string, doc := [],
    default := none, optional := true, positional := false }

def c10Schema : ArgumentStruct :=
  { flags := builtinFlags, options := [c10Opt], positional := none }

/-- A schema with one boolean flag (`verbose: bool`). -/
def c9Flag : ArgFlag :=
  { name := "verbose", short := some 'v', doc := [], output := true }

def c9Schema : ArgumentStruct :=
  { flags := builtinFlags ++ [c9Flag], options := [], positional := none }

/-- The de-dupe views for a user field `host: bool` after the two
built-ins. -/
def c7Views : List (Option Char × String) :=
  [(some 'h', "help"), (some 'V', "version"), (some 'h', "host")]

def c7Fields : List FieldDef :=
  [{ name := "verbose", path := "bool", attrs := [] }]

def c7Struct : ArgumentStruct :=
  { flags := builtinFlags ++ [c9Flag], options := [], positional := none }

/-- A struct `{ verbose: bool, vals: Vec<String> }`: both user fields are
assigned the short character `v`, but the `Vec` field is the positional sink,
which `derive_parser` never passes to `dedupe`. -/
def c7DupFields : List FieldDef :=
  [{ name := "verbose", path := "bool", attrs := [] },
   { name := "vals", path := "Vec<String>", attrs := [] }]

def c7ValsOpt : ArgOption :=
  { name := "vals", short := some 'v', tyHelp := .string, doc := [],
    default := none, optional := true, positional := true }

def c7DupStruct : ArgumentStruct :=
  { flags := builtinFlags ++ [c9Flag], options := [],
    positional := some c7ValsOpt }

/-- A struct `{ alpha: Option<String>, av: bool }`: the flag `av` is declared
second but scanned first (all flags are de-duped before any option). -/
def c7OrderFields : List FieldDef :=
  [{ name := "alpha", path := "Option<String>", attrs := [] },
   { name := "av", path := "bool", attrs := [] }]

/-! ## Helper lemmas -/

/-- The interleaved convert-and-push loop of the `--` arm equals
convert-everything-then-append: committing is interleaved with conversion in
the source, but the whole batch is discarded on the first failure because the
enclosing function returns the error. -/
theorem pushAll_eq_convAll (ty : ArgType) (acc : List Val) (toks : List String) :
    pushAll ty acc toks =
      match convAll ty toks with
      | .ok vs => .ok (acc ++ vs)
      | .error e => .error e := by
  induction toks generalizing acc with
  | nil => simp [pushAll, convAll]
  | cons t ts ih =>
    cases h : convVal ty "<POSITIONAL>" t with
    | ok v =>
      simp only [pushAll, convAll, h]
      rw [ih]
      cases convAll ty ts <;> simp
    | error e => simp only [pushAll, convAll, h]

/-- Every operational execution of the loop agrees with the functional
parser: the match arms of the generated code are mutually exclusive, so the
relation is single-valued. -/
theorem stepSound {s : ArgumentStruct} {st : PState} {toks : List String}
    {r : ParseResult} (h : Step s st toks r) : parseLoop s st toks = r := by
  induction h with
  | done st => rfl
  | helpStop st tok rest h1 => simp [parseLoop, h1]
  | versionStop st tok rest h1 h2 => simp [parseLoop, h1, h2]
  | flagSet st tok rest i r h1 h2 h3 _ ih =>
    simp [parseLoop, h1, h2, h3, ih]
  | optNoValue st tok j o h1 h2 h3 h4 =>
    simp [parseLoop, h1, h2, h3, h4]
  | optConvFail st tok v rest2 j o e h1 h2 h3 h4 h5 =>
    simp [parseLoop, h1, h2, h3, h4, h5]
  | optSet st tok v rest2 j o val r h1 h2 h3 h4 h5 _ ih =>
    simp [parseLoop, h1, h2, h3, h4, h5, ih]
  | posBatchOk st tok rest p vs h1 h2 h3 h4 h5 h6 h7 =>
    simp [parseLoop, h1, h2, h3, h4, h5, h6, h7]
  | posBatchFail st tok rest p e h1 h2 h3 h4 h5 h6 h7 =>
    simp [parseLoop, h1, h2, h3, h4, h5, h6, h7]
  | posOne st tok rest p val r h1 h2 h3 h4 h5 h6 h7 _ ih =>
    simp [parseLoop, h1, h2, h3, h4, h5, h6, h7, ih]
  | posOneFail st tok rest p e h1 h2 h3 h4 h5 h6 h7 =>
    simp [parseLoop, h1, h2, h3, h4, h5, h6, h7]
  | dashNoPos st tok rest h1 h2 h3 h4 h5 h6 =>
    simp [parseLoop, h1, h2, h3, h4, h5, h6]
  | unknownTok st tok rest h1 h2 h3 h4 h5 h6 =>
    simp [parseLoop, h1, h2, h3, h4, h5, h6]

/-- Successful map lookup implies membership. -/
theorem lookupChar_mem {dupes : List (Char × String)} {c : Char} {n : String}
    (h : lookupChar dupes c = some n) : (c, n) ∈ dupes := by
  induction dupes with
  | nil => simp [lookupChar] at h
  | cons p rest ih =>
    obtain ⟨k, v⟩ := p
    simp only [lookupChar] at h
    by_cases hk : k = c
    · rw [if_pos hk] at h
      cases h
      subst hk
      exact List.mem_cons_self _ _
    · rw [if_neg hk] at h
      exact List.mem_cons_of_mem _ (ih h)

/-- Failed map lookup is absence from the key list. -/
theorem lookupChar_eq_none {dupes : List (Char × String)} {c : Char} :
    lookupChar dupes c = none ↔ c ∉ dupes.map Prod.fst := by
  induction dupes with
  | nil => simp [lookupChar]
  | cons p rest ih =>
    obtain ⟨k, v⟩ := p
    by_cases hk : k = c
    · subst hk
      simp [lookupChar]
    · have hstep : lookupChar ((k, v) :: rest) c = lookupChar rest c := by
        simp [lookupChar, hk]
      rw [hstep, ih]
      simp only [List.map_cons, List.mem_cons, not_or]
      constructor
      · intro h
        exact ⟨fun hc => hk hc.symm, h⟩
      · intro h
        exact h.2

/-- The de-dupe fold succeeds exactly when the already-claimed letters plus
the assigned short names of the remaining views are pairwise distinct. -/
theorem dedupeAll_ok_iff (vs : List (Option Char × String)) :
    ∀ dupes : List (Char × String), (dupes.map Prod.fst).Nodup →
      (exceptOk (dedupeAll dupes vs) = true ↔
        (dupes.map Prod.fst ++ vs.filterMap Prod.fst).Nodup) := by
  induction vs with
  | nil =>
    intro dupes hnd
    simp [dedupeAll, exceptOk, hnd]
  | cons v rest ih =>
    intro dupes hnd
    obtain ⟨oc, n⟩ := v
    cases oc with
    | none =>
      simp only [dedupeAll, dedupe]
      simpa using ih dupes hnd
    | some c =>
      cases hl : lookupChar dupes c with
      | some other =>
        simp only [dedupeAll, dedupe, hl]
        have hc : c ∈ dupes.map Prod.fst :=
          List.mem_map_of_mem Prod.fst (lookupChar_mem hl)
        simp only [exceptOk, List.filterMap_cons_some, Bool.false_eq_true,
          false_iff]
        intro hnd2
        rw [List.nodup_append] at hnd2
        exact hnd2.2.2 hc (List.mem_cons_self _ _)
      | none =>
        simp only [dedupeAll, dedupe, hl]
        have hnotin : c ∉ dupes.map Prod.fst := lookupChar_eq_none.mp hl
        have hnd' : (((c, n) :: dupes).map Prod.fst).Nodup := by
          rw [List.map_cons, List.nodup_cons]
          exact ⟨hnotin, hnd⟩
        rw [ih ((c, n) :: dupes) hnd']
        simp only [List.map_cons, List.cons_append, List.filterMap_cons_some]
        exact (List.Perm.nodup_iff List.perm_middle).symm

/-- A duplicate-short error identifies two views, in declaration order, that
claim the same letter (or an entry already in the map plus a later view). -/
theorem dedupeAll_error_spec (vs : List (Option Char × String)) :
    ∀ (dupes : List (Char × String)) (c : Char) (n1 n2 : String),
      dedupeAll dupes vs = .error (.duplicateShort c n1 n2) →
      ∃ j, vs.get? j = some (some c, n2) ∧
        ((c, n1) ∈ dupes ∨ ∃ i, i < j ∧ vs.get? i = some (some c, n1)) := by
  induction vs with
  | nil =>
    intro dupes c n1 n2 h
    simp [dedupeAll] at h
  | cons v rest ih =>
    intro dupes c n1 n2 h
    obtain ⟨oc, n⟩ := v
    cases oc with
    | none =>
      simp only [dedupeAll, dedupe] at h
      obtain ⟨j, hj, hcl⟩ := ih dupes c n1 n2 h
      refine ⟨j + 1, by simpa using hj, ?_⟩
      rcases hcl with hmem | ⟨i, hi, hgi⟩
      · exact Or.inl hmem
      · exact Or.inr ⟨i + 1, Nat.succ_lt_succ hi, by simpa using hgi⟩
    | some c' =>
      cases hl : lookupChar dupes c' with
      | some other =>
        simp only [dedupeAll, dedupe, hl] at h
        obtain ⟨rfl, rfl, rfl⟩ :
            c' = c ∧ other = n1 ∧ n = n2 := by
          cases h
          exact ⟨rfl, rfl, rfl⟩
        exact ⟨0, by simp, Or.inl (lookupChar_mem hl)⟩
      | none =>
        simp only [dedupeAll, dedupe, hl] at h
        obtain ⟨j, hj, hcl⟩ := ih ((c', n) :: dupes) c n1 n2 h
        refine ⟨j + 1, by simpa using hj, ?_⟩
        rcases hcl with hmem | ⟨i, hi, hgi⟩
        · rcases List.mem_cons.mp hmem with heq | hmem'
          · refine Or.inr ⟨0, Nat.succ_pos j, ?_⟩
            obtain ⟨h1, h2⟩ := Prod.mk.injEq .. ▸ heq
            simp [h1, h2]
          · exact Or.inl hmem'
        · exact Or.inr ⟨i + 1, Nat.succ_lt_succ hi, by simpa using hgi⟩

/-- `chars().find(is_ascii_alphabetic)` returns the first alphabetic
character, unchanged. -/
theorem findShortL_spec (pre : List Char) (c : Char) (post : List Char)
    (hpre : ∀ x ∈ pre, isAsciiAlphabetic x = false)
    (hc : isAsciiAlphabetic c = true) :
    findShortL (pre ++ c :: post) = some c := by
  induction pre with
  | nil => simp [findShortL, hc]
  | cons x xs ih =>
    have hx := hpre x (by simp)
    simp only [List.cons_append, findShortL, hx]
    simpa using ih fun y hy => hpre y (by simp [hy])

/-- Re-assigning an option index overwrites the earlier value. -/
theorem setOpt_setOpt (st : PState) (j : Nat) (a b : Val) :
    setOpt (setOpt st j a) j b = setOpt st j b := by
  simp [setOpt, List.set_set]

/-- A matched option arm consumes the following token as the value and stores
it (one iteration of the generated loop). -/
theorem parseLoop_opt_step (s : ArgumentStruct) (st : PState) (tok v : String)
    (rest : List String) (j : Nat) (o : ArgOption) (val : Val)
    (h1 : helpTok tok = false) (h2 : versionTok tok = false)
    (h3 : findFlagIdx s tok = none) (h4 : findOptIn tok s.options = some (j, o))
    (h5 : convVal o.tyHelp tok v = .ok val) :
    parseLoop s st (tok :: v :: rest) = parseLoop s (setOpt st j val) rest := by
  conv_lhs => rw [parseLoop]
  simp [h1, h2, h3, h4, h5]

/-! ## Claim theorems -/

/-- C1: the claim says a `Vec` field without `#[positional]` is a multi-value
option, so `["--path","/a","--path","/b"]` yields `["/a","/b"]`.  The macro in
the source registers no `#[positional]` helper attribute and
`ArgOption::parse` marks every `Vec<...>` spelling positional, so the field
becomes the positional sink and the parse collects all four raw tokens —
contradicting the claim and the repository's own test `test_multivalue_paths`. -/
theorem c1_vec_is_positional_sink :
    argOptionParse "path" "Vec<PathBuf>" =
      .ok { name := "path", short := some 'p', tyHelp := .path, doc := [],
            default := none, optional := true, positional := true }
    ∧ deriveAndParse [{ name := "path", path := "Vec<PathBuf>", attrs := [] }]
        ["--path", "/a", "--path", "/b"] =
      some (.ok { flags := [], opts := [],
                  pos := [.str "--path", .str "/a", .str "--path", .str "/b"] }) :=
  ⟨rfl, rfl⟩

/-- C2: the claim says a required multi-value/positional field left empty
fails with `MissingRequired`.  The macro ignores the unknown `required`
attribute, classifies the `Vec` field as the (always optional) positional
sink, and the generated parse accepts an empty input with an empty list; the
runtime helper `RequiredArgExt for Vec<T>` that the claim describes exists in
src/traits.rs but is never invoked for `Vec` fields by this generator —
contradicting the repository's own test `test_required_multivalue`. -/
theorem c2_required_ignored :
    deriveAndParse
        [{ name := "names", path := "Vec<String>", attrs := [.otherA "required"] }]
        [] =
      some (.ok { flags := [], opts := [], pos := [] })
    ∧ vecRequired [] "--names" = .error (.missingRequired "--names") :=
  ⟨rfl, rfl⟩

/-- C3: the claim says `#[short('c')]` is accepted exactly when the literal is
a one-character char literal.  `parse_char_literal` errors when
`string.len() == 3` — which is precisely the one-character case `'c'` — so
`#[short('v')]` is rejected with "Expected char literal", while a longer
escape literal such as a backslash-n char literal is accepted (returning its
second source character).  The condition is inverted relative to the
documented intent. -/
theorem c3_char_literal_inverted :
    parseCharLiteral (String.mk [squote, 'v', squote]) = .error .expectedCharLiteral
    ∧ deriveParser
        [{ name := "verbose", path := "bool",
           attrs := [.shortA (String.mk [squote, 'v', squote])] }] =
      .error .expectedCharLiteral
    ∧ parseCharLiteral (String.mk [squote, '\\', 'n', squote]) = .ok '\\' :=
  ⟨rfl, rfl, rfl⟩

/-- C4 (counterexample): the claim says `#[short]` wins over `#[long]`.  In
the patch applied by `Argument::parse`, `long` is tested first, so a field
carrying both gets no short name at all; end to end, a `bool` field with
`#[long]` and a parsed `#[short(...)]` attribute still comes out with
`short = none`. -/
theorem c4_counterexample :
    patchShort true (some 'c') (some 'f') = none
    ∧ (some 'c' : Option Char) ≠ none
    ∧ deriveParser
        [{ name := "config", path := "bool",
           attrs := [.longA, .shortA (String.mk [squote, '\\', 'n', squote])] }] =
      .ok { flags := builtinFlags ++
              [{ name := "config", short := none, doc := [], output := true }],
            options := [], positional := none } :=
  ⟨rfl, by decide, rfl⟩

/-- C4 (amended): `#[long]` takes precedence — with both attributes the short
name is suppressed; `#[short]` determines the short name only when `#[long]`
is absent, and with neither the inferred short name is kept. -/
theorem c4_long_precedence (attrShort inferred : Option Char) (c : Char) :
    patchShort true attrShort inferred = none
    ∧ patchShort false (some c) inferred = some c
    ∧ patchShort false none inferred = inferred := by
  refine ⟨rfl, ?_, rfl⟩
  simp [patchShort]

/-- C5 (counterexample): the claim says the inferred short name is lowercased,
so a field `Foo` gets `'f'`.  The source calls
`chars().find(is_ascii_alphabetic)` with no case conversion, so `Foo` gets
`'F'`. -/
theorem c5_counterexample :
    deriveParser [{ name := "Foo", path := "bool", attrs := [] }] =
      .ok { flags := builtinFlags ++
              [{ name := "Foo", short := some 'F', doc := [], output := true }],
            options := [], positional := none }
    ∧ (some 'F' : Option Char) ≠ some 'f' :=
  ⟨rfl, by decide⟩

/-- C5 (amended): with neither `#[short]` nor `#[long]`, the inferred short
name is the first ASCII-alphabetic character of the field identifier,
unchanged (no lowercasing); the same `findShort` is used for flags
(`ArgFlag::parse`) and options (`ArgOption::parse`). -/
theorem c5_first_alpha_unchanged (pre : List Char) (c : Char) (post : List Char)
    (hpre : ∀ x ∈ pre, isAsciiAlphabetic x = false)
    (hc : isAsciiAlphabetic c = true) :
    argFlagParse (String.mk (pre ++ c :: post)) =
      { name := String.mk (pre ++ c :: post), short := some c, doc := [],
        output := true } := by
  have htl : (String.mk (pre ++ c :: post)).toList = pre ++ c :: post := rfl
  unfold argFlagParse findShort
  rw [htl, findShortL_spec pre c post hpre hc]

theorem c5_witness :
    (∀ x ∈ ['_', '1'], isAsciiAlphabetic x = false)
    ∧ isAsciiAlphabetic 'F' = true
    ∧ argFlagParse (String.mk (['_', '1'] ++ 'F' :: ['o'])) =
      { name := String.mk (['_', '1'] ++ 'F' :: ['o']), short := some 'F',
        doc := [], output := true } :=
  ⟨by decide, by decide,
    c5_first_alpha_unchanged ['_', '1'] 'F' ['o'] (by decide) (by decide)⟩

/-- C6: after a `--` token, when a positional sink exists, every remaining
token is converted per the sink's value kind with no further flag/option
matching, and the loop's interleaved push is equivalent to converting the
whole batch before committing anything: a single conversion failure yields the
error of the first failing token and no positional list at all. -/
theorem c6_dash_batch (s : ArgumentStruct) (p : ArgOption) (st : PState)
    (rest : List String) (hpos : s.positional = some p)
    (hflag : findFlagIdx s "--" = none)
    (hopt : findOptIn "--" s.options = none) :
    parseLoop s st ("--" :: rest) =
      match convAll p.tyHelp rest with
      | .ok vs => finalize s { st with pos := st.pos ++ vs }
      | .error e => .err e := by
  have h1 : helpTok "--" = false := rfl
  have h2 : versionTok "--" = false := rfl
  have h3 : (("--" : String) == "--") = true := rfl
  conv_lhs => rw [parseLoop]
  rw [h1, h2]
  simp only [Bool.false_eq_true, if_false, hflag, hopt, hpos, h3, if_true,
    pushAll_eq_convAll]
  cases convAll p.tyHelp rest <;> rfl

theorem c6_witness :
    c6Schema.positional = some c6Pos
    ∧ parseLoop c6Schema (initState c6Schema) ["--", "1", "x"] =
      .err (.parseIntError "<POSITIONAL>" "x")
    ∧ parseLoop c6Schema (initState c6Schema) ["--", "1", "2"] =
      .ok { flags := [], opts := [], pos := [.num 1, .num 2] } := by
  refine ⟨rfl, ?_, ?_⟩
  · rw [c6_dash_batch c6Schema c6Pos (initState c6Schema) ["1", "x"] rfl
      (by decide) rfl]
    rfl
  · rw [c6_dash_batch c6Schema c6Pos (initState c6Schema) ["1", "2"] rfl
      (by decide) rfl]
    rfl

/-- C7 (counterexample): the claim's universal is false of the code in two
ways.  First, the positional sink is assigned a short name by
`ArgOption::parse` but `derive_parser` de-dupes only `flags` and
`ast.options`, never `ast.positional`: the struct
`{ verbose: bool, vals: Vec<String> }` has two user fields both assigned `v`,
yet schema construction succeeds.  Second, letters are claimed
all-flags-then-all-options, not in declaration order: for
`{ alpha: Option<String>, av: bool }` the error blames the second-declared
`av` as the earlier claimant and the first-declared `alpha` as the offending
field, the reverse of what first-come-first-served declaration order would
report. -/
theorem c7_counterexample :
    deriveParser c7DupFields = .ok c7DupStruct
    ∧ c7DupStruct.flags.map ArgFlag.short = [some 'h', some 'V', some 'v']
    ∧ c7DupStruct.positional.map ArgOption.short = some (some 'v')
    ∧ deriveParser c7OrderFields = .error (.duplicateShort 'a' "av" "alpha")
    ∧ DeriveError.duplicateShort 'a' "av" "alpha" ≠
        .duplicateShort 'a' "alpha" "av" :=
  ⟨rfl, rfl, rfl, rfl, by decide⟩

/-- C7 (amended): short-name conflicts among the de-duplicated collections —
the two built-in flags, user boolean flags, and valued (non-positional)
options — are rejected at schema-construction time: de-duplication succeeds
exactly when their assigned short names are pairwise distinct; letters are
claimed first-come-first-served in scan order (built-ins `h` and `V` first,
then all flags in declaration order, then all valued options in declaration
order), and an error names a pair of views claiming the same letter with the
earlier claimant first; any schema the macro actually produces has
pairwise-distinct short names across its flags and options — the collections
that own the run-time `-c` spellings — so no such conflict survives to run
time.  The positional sink's inferred short name is never checked (and has no
run-time spelling). -/
theorem c7_short_collision :
    (∀ views : List (Option Char × String),
      exceptOk (dedupeAll [] views) = true ↔ (views.filterMap Prod.fst).Nodup)
    ∧ (∀ (views : List (Option Char × String)) (c : Char) (n1 n2 : String),
        dedupeAll [] views = .error (.duplicateShort c n1 n2) →
        ∃ i j, i < j ∧ views.get? i = some (some c, n1)
          ∧ views.get? j = some (some c, n2))
    ∧ (∀ (fields : List FieldDef) (s : ArgumentStruct),
        deriveParser fields = .ok s →
        ((s.flags.map flagView ++ s.options.map optView).filterMap Prod.fst).Nodup) := by
  refine ⟨?_, ?_, ?_⟩
  · intro views
    simpa using dedupeAll_ok_iff views [] (by simp)
  · intro views c n1 n2 h
    obtain ⟨j, hj, hcl⟩ := dedupeAll_error_spec views [] c n1 n2 h
    rcases hcl with hmem | ⟨i, hi, hgi⟩
    · simp at hmem
    · exact ⟨i, j, hi, hgi, hj⟩
  · intro fields s h
    unfold deriveParser at h
    split at h
    · exact absurd h (by simp)
    · split at h
      · exact absurd h (by simp)
      · next fl opts pos heq2 =>
        split at h
        · exact absurd h (by simp)
        · next d heq3 =>
          simp only [Except.ok.injEq] at h
          have hok := (dedupeAll_ok_iff
            ((builtinFlags ++ fl).map flagView ++ opts.map optView) []
            (by simp)).mp (by rw [heq3]; rfl)
          simp only [List.nil_append] at hok
          rw [← h]
          exact hok

theorem c7_witness :
    ((([(some 'v', "verbose")] : List (Option Char × String)).filterMap
        Prod.fst).Nodup)
    ∧ (∃ i j, i < j ∧ c7Views.get? i = some (some 'h', "help")
        ∧ c7Views.get? j = some (some 'h', "host"))
    ∧ ((c7Struct.flags.map flagView ++ c7Struct.options.map optView).filterMap
        Prod.fst).Nodup :=
  ⟨(c7_short_collision.1 [(some 'v', "verbose")]).mp (by decide),
   c7_short_collision.2.1 c7Views 'h' "help" "host" rfl,
   c7_short_collision.2.2 c7Fields c7Struct rfl⟩

/-- C8: the claim says `#[default(...)]` on a multi-value, positional, or
optional field is a fatal definition-processing error.  The macro performs no
such check: on a `Vec` field the default is parsed, patched into the doc text,
and then silently ignored (the positional variable is initialised to an empty
vector), and on an `Option<T>` field schema construction also completes, the
default seeding the option's initial value — contradicting the repository's
`default_multivalue`/`default_option`/`default_positional` compile-fail
tests. -/
theorem c8_default_not_rejected :
    deriveAndParse
        [{ name := "numbers", path := "Vec<i32>", attrs := [.defaultA "42"] }]
        [] =
      some (.ok { flags := [], opts := [], pos := [] })
    ∧ deriveAndParse
        [{ name := "name", path := "Option<String>",
           attrs := [.defaultA (String.mk [dquote, 'x', dquote])] }]
        [] =
      some (.ok { flags := [], opts := [some (.str "x")], pos := [] }) :=
  ⟨rfl, rfl⟩

/-- C9: for inputs containing no help/version token, the generated parse
procedure is deterministic — any two executions of the generated loop (read
operationally, arm by arm) from the initial state on the same token sequence
produce the same outcome. -/
theorem c9_deterministic (s : ArgumentStruct) (toks : List String)
    (r r' : ParseResult) (_hnohv : noHelpVersion toks = true)
    (hr : Step s (initState s) toks r) (hr' : Step s (initState s) toks r') :
    r = r' :=
  (stepSound hr).symm.trans (stepSound hr')

theorem c9_witness :
    noHelpVersion ["--verbose"] = true
    ∧ (ParseResult.ok { flags := [true], opts := [], pos := [] } =
        ParseResult.ok { flags := [true], opts := [], pos := [] }) := by
  refine ⟨by decide, ?_⟩
  have d : Step c9Schema (initState c9Schema) ["--verbose"]
      (.ok { flags := [true], opts := [], pos := [] }) :=
    Step.flagSet _ "--verbose" [] 2 _ rfl rfl (by decide) (Step.done _)
  exact c9_deterministic c9Schema ["--verbose"] _ _ (by decide) d d

/-- C10: a scalar option repeated on the command line (under any matching
spelling) is not rejected: each occurrence consumes and converts its value,
the later assignment overwrites the earlier one, and the loop continues, so
the field's final value is the converted value of the last occurrence. -/
theorem c10_last_wins (s : ArgumentStruct) (st : PState)
    (tok1 v1 tok2 v2 : String) (rest : List String) (j : Nat) (o : ArgOption)
    (a b : Val)
    (h1 : helpTok tok1 = false) (h2 : versionTok tok1 = false)
    (h3 : findFlagIdx s tok1 = none)
    (h4 : findOptIn tok1 s.options = some (j, o))
    (h5 : convVal o.tyHelp tok1 v1 = .ok a)
    (h6 : helpTok tok2 = false) (h7 : versionTok tok2 = false)
    (h8 : findFlagIdx s tok2 = none)
    (h9 : findOptIn tok2 s.options = some (j, o))
    (h10 : convVal o.tyHelp tok2 v2 = .ok b) :
    parseLoop s st (tok1 :: v1 :: tok2 :: v2 :: rest) =
      parseLoop s (setOpt st j b) rest := by
  rw [parseLoop_opt_step s st tok1 v1 (tok2 :: v2 :: rest) j o a h1 h2 h3 h4 h5,
    parseLoop_opt_step s (setOpt st j a) tok2 v2 rest j o b h6 h7 h8 h9 h10,
    setOpt_setOpt]

theorem c10_witness :
    parseArgs c10Schema ["--name", "A", "-n", "B"] =
      .ok { flags := [], opts := [some (.str "B")], pos := [] } := by
  have h := c10_last_wins c10Schema (initState c10Schema) "--name" "A" "-n" "B"
    [] 0 c10Opt (.str "A") (.str "B") rfl rfl (by decide) (by decide) rfl rfl
    rfl (by decide) (by decide) rfl
  exact h.trans rfl

end Onlyargs
